import Mathlib

/-!
Shallow embedding of the texera-client repository (src/client/converter.py and
src/client/texera_python_client.py) and verification of the frozen claims about
its specification.

Python dictionaries parsed from JSON are embedded as association lists with
Python `dict` semantics: a dict-literal insertion updates an existing key in
place and otherwise appends at the end; lookup returns the first (unique)
binding.  Fallible Python code (KeyError, StopIteration, raised exceptions)
is embedded with `Option`.
-/

/-! ### JSON values

Mutual inductives (instead of a nested `List`) so that every function on them
is structurally recursive and reduces by `rfl`/`decide`. -/

mutual

inductive JVal where
  | str : String → JVal
  | num : Int → JVal
  | bool : Bool → JVal
  | null : JVal
  | arr : JArr → JVal
  | obj : JObj → JVal
deriving DecidableEq

inductive JArr where
  | nil : JArr
  | cons : JVal → JArr → JArr
deriving DecidableEq

inductive JObj where
  | nil : JObj
  | cons : String → JVal → JObj → JObj
deriving DecidableEq

end

/-! ### Python dict operations on `JObj` -/

/-- Membership test `key in d` for a Python dict. -/
def objHasKey : JObj → String → Bool
  | .nil, _ => false
  | .cons k _ rest, key => if k = key then true else objHasKey rest key

/-- Lookup `d[key]` for a Python dict (first binding). -/
def objGet : JObj → String → Option JVal
  | .nil, _ => none
  | .cons k v rest, key => if k = key then some v else objGet rest key

/-- Replace the value bound to `key`, keeping its position (Python dict update
of an existing key). -/
def objUpdate : JObj → String → JVal → JObj
  | .nil, _, _ => .nil
  | .cons k v rest, key, val =>
    if k = key then .cons key val (objUpdate rest key val)
    else .cons k v (objUpdate rest key val)

/-- Append a fresh binding at the end (Python dict insertion of a new key). -/
def objAppendNew : JObj → String → JVal → JObj
  | .nil, key, val => .cons key val .nil
  | .cons k v rest, key, val => .cons k v (objAppendNew rest key val)

/-- Python dict assignment `d[key] = val` / dict-literal merge of one key:
update in place when present, append when absent. -/
def objSet (d : JObj) (key : String) (val : JVal) : JObj :=
  if objHasKey d key then objUpdate d key val else objAppendNew d key val

/-! ### `json.dumps` (default separators, `ensure_ascii=False`) -/

/-- Lowercase hexadecimal digit, as produced by Python's JSON escapes. -/
def hexDigit (n : Nat) : Char :=
  if n < 10 then Char.ofNat (48 + n) else Char.ofNat (87 + n)

/-- Escape one character the way `json.dumps(..., ensure_ascii=False)` does. -/
def jsonEscapeChar (c : Char) : String :=
  if c = Char.ofNat 34 then "\\\""
  else if c = Char.ofNat 92 then "\\\\"
  else if c = Char.ofNat 10 then "\\n"
  else if c = Char.ofNat 9 then "\\t"
  else if c = Char.ofNat 13 then "\\r"
  else if c = Char.ofNat 8 then "\\b"
  else if c = Char.ofNat 12 then "\\f"
  else if c.toNat < 32 then
    "\\u00" ++ (hexDigit (c.toNat / 16)).toString ++ (hexDigit (c.toNat % 16)).toString
  else c.toString

/-- Escape a whole string for JSON output. -/
def jsonEscape (s : String) : String :=
  String.join (s.toList.map jsonEscapeChar)

mutual

/-- Serializer embedding Python `json.dumps(value, ensure_ascii=False)` with the
default separators `", "` and `": "`. -/
def jsonDumps : JVal → String
  | .str s => "\"" ++ jsonEscape s ++ "\""
  | .num n => toString n
  | .bool b => if b then "true" else "false"
  | .null => "null"
  | .arr xs => "[" ++ String.intercalate ", " (jsonDumpsArr xs) ++ "]"
  | .obj kvs => "\x7b" ++ String.intercalate ", " (jsonDumpsObj kvs) ++ "\x7d"

/-- Serialize the elements of a JSON array. -/
def jsonDumpsArr : JArr → List String
  | .nil => []
  | .cons x xs => jsonDumps x :: jsonDumpsArr xs

/-- Serialize the bindings of a JSON object. -/
def jsonDumpsObj : JObj → List String
  | .nil => []
  | .cons k v rest => ("\"" ++ jsonEscape k ++ "\": " ++ jsonDumps v) :: jsonDumpsObj rest

end

/-! ### User Workflow Document data model (input of converter.py) -/

/-- One port of an operator: its stable `portID` plus any further fields the
document carries (they are passed through unmodified by the converter). -/
structure Port where
  portID : String
  extra : JObj

/-- One operator of the user workflow document: the five fields read by
`convertWorkflowContentToLogicalPlan`. -/
structure WOperator where
  operatorID : String
  operatorType : String
  inputPorts : List Port
  outputPorts : List Port
  operatorProperties : JObj

/-- One endpoint of a link: `{operatorID, portID}`. -/
structure LinkEnd where
  operatorID : String
  portID : String

/-- One link of the user workflow document: `{source, target}`. -/
structure WLink where
  source : LinkEnd
  target : LinkEnd

/-- The parsed user workflow document, with the two optional id lists kept as
`Option` to model `workflow_dict.get(..., [])` defaults. -/
structure WorkflowContent where
  operators : List WOperator
  links : List WLink
  opsToViewResult : Option (List String)
  opsToReuseResult : Option (List String)

/-! ### Logical Plan Document data model (output of converter.py) -/

/-- Port reference in the logical plan: `{"id": ordinal, "internal": false}`. -/
structure PortIdentity where
  id : Nat
  internal : Bool

/-- One converted link record:
`{fromOpId, fromPortId, toOpId, toPortId}`. -/
structure LogicalLink where
  fromOpId : String
  fromPortId : PortIdentity
  toOpId : String
  toPortId : PortIdentity

/-- The converted logical plan dictionary. -/
structure LogicalPlan where
  operators : List JObj
  links : List LogicalLink
  opsToReuseResult : List String
  opsToViewResult : List String

/-! ### converter.py -/

/-- Embeds `next(op for op in workflow_dict["operators"] if op["operatorID"] ==
operatorID)` (converter.py lines 30 and 34): first operator with the given id,
`none` when the generator is exhausted (StopIteration). -/
def firstOperator : List WOperator → String → Option WOperator
  | [], _ => none
  | op :: rest, oid => if op.operatorID = oid then some op else firstOperator rest oid

/-- Embeds `next(i for i, port in enumerate(ports) if port["portID"] == pid)`
(converter.py lines 31 and 35): zero-based index of the first port whose
`portID` equals `pid`, `none` on StopIteration. -/
def firstPortIdx : List Port → String → Option Nat
  | [], _ => none
  | p :: rest, pid =>
    if p.portID = pid then some 0 else (firstPortIdx rest pid).map (· + 1)

/-- Embeds `get_output_port_ordinal` (converter.py lines 33-35). -/
def get_output_port_ordinal (ops : List WOperator) (operatorID outputPortID : String) :
    Option Nat :=
  match firstOperator ops operatorID with
  | none => none
  | some op => firstPortIdx op.outputPorts outputPortID

/-- Embeds `get_input_port_ordinal` (converter.py lines 29-31). -/
def get_input_port_ordinal (ops : List WOperator) (operatorID inputPortID : String) :
    Option Nat :=
  match firstOperator ops operatorID with
  | none => none
  | some op => firstPortIdx op.inputPorts inputPortID

/-- JSON encoding of one port as it sits in the document. -/
def portToJVal (p : Port) : JVal :=
  .obj (.cons "portID" (.str p.portID) p.extra)

/-- JSON encoding of a port list. -/
def portsToJArr : List Port → JArr
  | [] => .nil
  | p :: ps => .cons (portToJVal p) (portsToJArr ps)

/-- Embeds the dict literal of converter.py lines 40-46:
`{**operator["operatorProperties"], "operatorID": ..., "operatorType": ...,
"inputPorts": ..., "outputPorts": ...}` — the properties are spread first and
the four structural keys are merged after them (so a structural key overrides
a colliding property key, Python dict-literal semantics). -/
def flattenOperator (op : WOperator) : JObj :=
  objSet (objSet (objSet (objSet op.operatorProperties
    "operatorID" (.str op.operatorID))
    "operatorType" (.str op.operatorType))
    "inputPorts" (.arr (portsToJArr op.inputPorts)))
    "outputPorts" (.arr (portsToJArr op.outputPorts))

/-- The same flattening step (converter.py lines 40-46) applied to a raw
operator dictionary: every field access `operator[...]` is a fallible lookup
(KeyError when absent), and spreading `**props` requires the value to be an
object. -/
def flattenOperatorDict (d : JObj) : Option JObj :=
  match objGet d "operatorProperties" with
  | some (.obj props) =>
    match objGet d "operatorID", objGet d "operatorType",
          objGet d "inputPorts", objGet d "outputPorts" with
    | some vID, some vType, some vIn, some vOut =>
      some (objSet (objSet (objSet (objSet props
        "operatorID" vID) "operatorType" vType) "inputPorts" vIn) "outputPorts" vOut)
    | _, _, _, _ => none
  | _ => none

/-- Raw dictionary form of a structured operator, for relating the two views
of the flattening step. -/
def operatorToJObj (op : WOperator) : JObj :=
  .cons "operatorProperties" (.obj op.operatorProperties)
    (.cons "operatorID" (.str op.operatorID)
      (.cons "operatorType" (.str op.operatorType)
        (.cons "inputPorts" (.arr (portsToJArr op.inputPorts))
          (.cons "outputPorts" (.arr (portsToJArr op.outputPorts)) .nil))))

/-- Embeds the body of the links loop (converter.py lines 50-60): both port
ordinals are resolved (either failure propagates) and the four-field link
record is built with `internal: False` fixed. -/
def convertLink (ops : List WOperator) (l : WLink) : Option LogicalLink :=
  match get_output_port_ordinal ops l.source.operatorID l.source.portID,
        get_input_port_ordinal ops l.target.operatorID l.target.portID with
  | some outIdx, some inIdx =>
    some { fromOpId := l.source.operatorID
           fromPortId := { id := outIdx, internal := false }
           toOpId := l.target.operatorID
           toPortId := { id := inIdx, internal := false } }
  | _, _ => none

/-- Embeds the links loop of converter.py lines 49-61: the first failing link
lookup aborts the whole conversion. -/
def convertLinks (ops : List WOperator) : List WLink → Option (List LogicalLink)
  | [] => some []
  | l :: rest =>
    match convertLink ops l, convertLinks ops rest with
    | some ll, some lls => some (ll :: lls)
    | _, _ => none

/-- Embeds `set(op["operatorID"] for op in ...)` (converter.py line 63): the
set of operator ids, one occurrence each. -/
def setOfIds : List String → List String
  | [] => []
  | x :: rest => if x ∈ setOfIds rest then setOfIds rest else x :: setOfIds rest

/-- Embeds `list(operator_ids.intersection(requested))` (converter.py lines
64-65): the elements of the operator-id set that also occur in the requested
list.  Python iterates the set in an unspecified order; this embedding fixes
one order, and all claims about the result are up to set membership. -/
def intersectIds (opIds requested : List String) : List String :=
  (setOfIds opIds).filter (fun oid => decide (oid ∈ requested))

/-- Embeds `convertWorkflowContentToLogicalPlan` (converter.py lines 5-67) on
an already-parsed document: flatten every operator, convert every link (a
failing port/operator lookup propagates, yielding `none`), and intersect the
two optional id lists with the set of present operator ids (absent lists
default to `[]`). -/
def convertWorkflowContentToLogicalPlan (w : WorkflowContent) : Option LogicalPlan :=
  match convertLinks w.operators w.links with
  | none => none
  | some lls =>
    some { operators := w.operators.map flattenOperator
           links := lls
           opsToReuseResult :=
             intersectIds (w.operators.map WOperator.operatorID)
               (w.opsToReuseResult.getD [])
           opsToViewResult :=
             intersectIds (w.operators.map WOperator.operatorID)
               (w.opsToViewResult.getD []) }

/-! ### texera_python_client.py : Export Correlator table

The module-level dict `export_requests` maps `(operator, page)` to
`(export directory, requested page size)` (texera_python_client.py line 16).
It is embedded as an association list with Python dict semantics. -/

/-- A key of the `export_requests` dict: `(operatorID, pageIndex)`. -/
abbrev ExportKey := String × Int

/-- A value of the `export_requests` dict: `(export directory, page size)`. -/
abbrev ExportVal := String × Int

/-- The `export_requests` dict itself. -/
abbrev ExportTable := List (ExportKey × ExportVal)

/-- Membership test `key in export_requests`. -/
def tableHasKey : ExportTable → ExportKey → Bool
  | [], _ => false
  | (k, _) :: rest, key => if k = key then true else tableHasKey rest key

/-- Lookup in `export_requests` (first binding of the key). -/
def tableLookup : ExportTable → ExportKey → Option ExportVal
  | [], _ => none
  | (k, v) :: rest, key => if k = key then some v else tableLookup rest key

/-- Python dict assignment `export_requests[key] = val`: update in place when
the key is present, append otherwise. -/
def tableInsert (tbl : ExportTable) (key : ExportKey) (val : ExportVal) : ExportTable :=
  if tableHasKey tbl key then
    tbl.map (fun p => if p.1 = key then (key, val) else p)
  else tbl ++ [(key, val)]

/-- Removal performed by `export_requests.pop(key)`: drop the binding of the
key (a Python dict holds at most one). -/
def tableErase (tbl : ExportTable) (key : ExportKey) : ExportTable :=
  tbl.filter (fun p => if p.1 = key then false else true)

/-! ### texera_python_client.py : Command Encoder -/

/-- Parsed arguments of a `page` command (texera_python_client.py lines 46-57);
`exportDir` embeds the optional `--export` directory `ns.export`. -/
structure PageCommand where
  operator : String
  size : Int
  page : Int
  exportDir : Option String

/-- Embeds `handle_kill` (texera_python_client.py lines 70-72): the fixed
kill message. -/
def handle_kill : JVal :=
  .obj (.cons "type" (.str "WorkflowKillRequest") .nil)

/-- Embeds `handle_page` (texera_python_client.py lines 74-87): when an export
directory was given, record `(operator, page) -> (dir, size)` in the table,
then build the pagination request message. -/
def handle_page (tbl : ExportTable) (ns : PageCommand) : ExportTable × JVal :=
  let tbl1 :=
    match ns.exportDir with
    | some d => tableInsert tbl (ns.operator, ns.page) (d, ns.size)
    | none => tbl
  (tbl1,
    .obj (.cons "type" (.str "ResultPaginationRequest")
      (.cons "requestID"
        (.str ("req_" ++ ns.operator ++ "_" ++ toString ns.size ++ "_" ++ toString ns.page))
      (.cons "operatorID" (.str ns.operator)
      (.cons "pageIndex" (.num ns.page)
      (.cons "pageSize" (.num ns.size) .nil))))))

/-- Outcome of looking at the plan file in `handle_exec`: the file is missing
(`os.path.isfile` is false), reading it raised, or its text was read. -/
inductive ReadResult where
  | notFound : ReadResult
  | readError : ReadResult
  | content : String → ReadResult

/-- Character-list test that `small` occurs as a prefix of `big`. -/
def startsWithChars : List Char → List Char → Bool
  | [], _ => true
  | _ :: _, [] => false
  | a :: as, b :: bs => if a = b then startsWithChars as bs else false

/-- Character-list test that `needle` occurs contiguously inside `hay`. -/
def hasInfixChars (needle : List Char) : List Char → Bool
  | [] => startsWithChars needle []
  | c :: rest =>
    if startsWithChars needle (c :: rest) then true else hasInfixChars needle rest

/-- Embeds the format probe `'"operatorPositions"' in raw`
(texera_python_client.py line 97). -/
def containsMarker (raw : String) : Bool :=
  hasInfixChars "\"operatorPositions\"".toList raw.toList

/-- Embeds the body of `handle_exec`'s try block (texera_python_client.py
lines 97-102): probe for the marker and route to the converter or to a plain
JSON parse.  `convertRaw` stands for `convertWorkflowContentToLogicalPlan`
applied to the raw text (its internal `json.loads` may raise) and `parseRaw`
for `json.loads`; both may fail, which the except clause turns into an
aborted command. -/
def detect_and_load (convertRaw parseRaw : String → Option JVal) (raw : String) :
    Option JVal :=
  if containsMarker raw then convertRaw raw else parseRaw raw

/-- The execute request payload (texera_python_client.py lines 106-113). -/
def execPayload (name : String) (lp : JVal) : JVal :=
  .obj (.cons "type" (.str "WorkflowExecuteRequest")
    (.cons "executionName" (.str name)
    (.cons "engineVersion" (.str "3a1c33d6f")
    (.cons "logicalPlan" lp
    (.cons "workflowSettings" (.obj (.cons "dataTransferBatchSize" (.num 400) .nil))
    (.cons "emailNotificationEnabled" (.bool false) .nil))))))

/-- Embeds `handle_exec` (texera_python_client.py lines 89-115): a missing
file, a failed read, or a failed parse/conversion each return before the
single `ws.send`, so `none` means nothing was transmitted. -/
def handle_exec (convertRaw parseRaw : String → Option JVal) (name : String)
    (r : ReadResult) : Option JVal :=
  match r with
  | .notFound => none
  | .readError => none
  | .content raw =>
    match detect_and_load convertRaw parseRaw raw with
    | none => none
    | some lp => some (execPayload name lp)

/-- The failure condition of the claim about `handle_exec`: the plan file is
missing, unreadable, or its contents fail parsing/conversion. -/
def execFails (convertRaw parseRaw : String → Option JVal) : ReadResult → Prop
  | .notFound => True
  | .readError => True
  | .content raw => detect_and_load convertRaw parseRaw raw = none

/-! ### texera_python_client.py : Event Dispatcher (receiver) -/

/-- A `PaginatedResultEvent` as read by the receiver (texera_python_client.py
lines 141-146): `operatorID`, `pageIndex`, the row list `table` (defaulting to
`[]` at access), and `schema`. -/
structure PaginatedResultEvent where
  operatorID : String
  pageIndex : Int
  table : List JVal
  schema : JVal

/-- One export file write performed by the receiver: the destination
directory, the file name, and the written lines (one JSON record per line). -/
structure FileWrite where
  dir : String
  filename : String
  lines : List String

/-- Embeds the export-completion part of the `PaginatedResultEvent` branch of
`receiver` (texera_python_client.py lines 150-161): when `(operatorID,
pageIndex)` is a key of the table, pop it and write one `json.dumps(row)` per
line to `{op}_{requested size}_{page}.jsonl` inside the stored directory;
otherwise write nothing and leave the table alone. -/
def receiverPaginatedResult (tbl : ExportTable) (e : PaginatedResultEvent) :
    ExportTable × Option FileWrite :=
  match tableLookup tbl (e.operatorID, e.pageIndex) with
  | some (outDir, reqSize) =>
    (tableErase tbl (e.operatorID, e.pageIndex),
      some { dir := outDir
             filename :=
               e.operatorID ++ "_" ++ toString reqSize ++ "_" ++
                 toString e.pageIndex ++ ".jsonl"
             lines := e.table.map jsonDumps })
  | none => (tbl, none)

/-- Embeds the `ExecutionDurationUpdateEvent` branch of `receiver`
(texera_python_client.py lines 126-130): when the carried running flag is
false, report the millisecond duration divided by 1000; otherwise report
nothing.  The Python float division is embedded as exact division in `ℚ`. -/
def receiverDurationUpdate (durationMs : Int) (running : Bool) : Option ℚ :=
  if !running then some ((durationMs : ℚ) / 1000) else none

/-! ### texera_python_client.py : sender loop -/

/-- One parsed console command of the sender loop (texera_python_client.py
lines 196-206). -/
inductive Command where
  | kill : Command
  | page : PageCommand → Command
  | exec : String → ReadResult → Command
  | unknown : Command

/-- One iteration of the sender loop: the table after the command and the
messages it sent. -/
def senderStep (convertRaw parseRaw : String → Option JVal) (tbl : ExportTable) :
    Command → ExportTable × List JVal
  | .kill => (tbl, [handle_kill])
  | .page ns =>
    let r := handle_page tbl ns
    (r.1, [r.2])
  | .exec name rr => (tbl, (handle_exec convertRaw parseRaw name rr).toList)
  | .unknown => (tbl, [])

/-- The sender loop over a finite script of commands (texera_python_client.py
lines 177-206): every command is processed in order and the sent messages are
concatenated — no command failure ends the loop. -/
def senderRun (convertRaw parseRaw : String → Option JVal) (tbl : ExportTable) :
    List Command → ExportTable × List JVal
  | [] => (tbl, [])
  | c :: cs =>
    let r1 := senderStep convertRaw parseRaw tbl c
    let r2 := senderRun convertRaw parseRaw r1.1 cs
    (r2.1, r1.2 ++ r2.2)

/-! ### Specification-side predicates (written from the claims' wording) -/

/-- Some port of the list carries the given `portID`. -/
def anyPortMatches : List Port → String → Bool
  | [], _ => false
  | p :: rest, pid => if p.portID = pid then true else anyPortMatches rest pid

/-- Both endpoints of the link reference an existing operator and an existing
port of it: the source `portID` occurs among the source operator's
`outputPorts` and the target `portID` among the target operator's
`inputPorts`. -/
def endpointsResolve (ops : List WOperator) (l : WLink) : Bool :=
  (match firstOperator ops l.source.operatorID with
   | some op => anyPortMatches op.outputPorts l.source.portID
   | none => false)
  &&
  (match firstOperator ops l.target.operatorID with
   | some op => anyPortMatches op.inputPorts l.target.portID
   | none => false)

/-- The number `j` is the zero-based index of the port with the given
`portID` in the list (the first position carrying it). -/
def isFirstPortIdx (ports : List Port) (pid : String) (j : Nat) : Prop :=
  ∃ h : j < ports.length,
    (ports.get ⟨j, h⟩).portID = pid ∧
      ∀ j' (h' : j' < j), (ports.get ⟨j', Nat.lt_trans h' h⟩).portID ≠ pid

/-- The claimed shape of one converted link record: both operator ids are
copied, both `internal` flags are false, and both port ordinals are the
zero-based index of the referenced `portID` within the referenced operator's
port list. -/
def linkSpec (ops : List WOperator) (l : WLink) (ll : LogicalLink) : Prop :=
  ll.fromOpId = l.source.operatorID ∧
  ll.toOpId = l.target.operatorID ∧
  ll.fromPortId.internal = false ∧
  ll.toPortId.internal = false ∧
  (∃ srcOp, firstOperator ops l.source.operatorID = some srcOp ∧
    isFirstPortIdx srcOp.outputPorts l.source.portID ll.fromPortId.id) ∧
  (∃ tgtOp, firstOperator ops l.target.operatorID = some tgtOp ∧
    isFirstPortIdx tgtOp.inputPorts l.target.portID ll.toPortId.id)

/-- The value the conversion stores under one of the four structural keys. -/
def structuralValue (op : WOperator) (k : String) : JVal :=
  if k = "operatorID" then .str op.operatorID
  else if k = "operatorType" then .str op.operatorType
  else if k = "inputPorts" then .arr (portsToJArr op.inputPorts)
  else .arr (portsToJArr op.outputPorts)

/-- A flat operator record carrying exactly the four structural fields. -/
def flatFour (vID vType vIn vOut : JVal) : JObj :=
  .cons "operatorID" vID
    (.cons "operatorType" vType
      (.cons "inputPorts" vIn
        (.cons "outputPorts" vOut .nil)))

/-- An operator record carrying an empty `operatorProperties` object next to
the four structural fields. -/
def withEmptyProps (vID vType vIn vOut : JVal) : JObj :=
  .cons "operatorProperties" (.obj .nil) (flatFour vID vType vIn vOut)

/-! ### Concrete sample documents for witnesses and counterexamples -/

/-- Port with a given id and no further fields. -/
def portOf (pid : String) : Port :=
  { portID := pid, extra := .nil }

/-- Sample source operator with two output ports. -/
def sampleOp1 : WOperator :=
  { operatorID := "scan1", operatorType := "CSVFileScan"
    inputPorts := [], outputPorts := [portOf "out0", portOf "out1"]
    operatorProperties := .nil }

/-- Sample sink operator with one input port. -/
def sampleOp2 : WOperator :=
  { operatorID := "sink1", operatorType := "SimpleSink"
    inputPorts := [portOf "in0"], outputPorts := []
    operatorProperties := .nil }

/-- Sample link from the second output port of `sampleOp1` to the input port
of `sampleOp2`. -/
def sampleLink : WLink :=
  { source := { operatorID := "scan1", portID := "out1" }
    target := { operatorID := "sink1", portID := "in0" } }

/-- Sample document whose single link fully resolves. -/
def sampleDoc1 : WorkflowContent :=
  { operators := [sampleOp1, sampleOp2], links := [sampleLink]
    opsToViewResult := none, opsToReuseResult := none }

/-- Sample link whose source `portID` matches no output port of its source
operator. -/
def badLink : WLink :=
  { source := { operatorID := "scan1", portID := "ghostPort" }
    target := { operatorID := "sink1", portID := "in0" } }

/-- Sample document containing a link with an unresolvable source port. -/
def sampleDoc6 : WorkflowContent :=
  { operators := [sampleOp1, sampleOp2], links := [badLink]
    opsToViewResult := none, opsToReuseResult := none }

/-- Sample document with a dangling id in `opsToViewResult` and an absent
`opsToReuseResult`. -/
def sampleDoc3 : WorkflowContent :=
  { operators := [sampleOp1, sampleOp2], links := []
    opsToViewResult := some ["sink1", "ghost"], opsToReuseResult := none }

/-- The plan the converter produces for `sampleDoc3`. -/
def samplePlan3 : LogicalPlan :=
  { operators := [flattenOperator sampleOp1, flattenOperator sampleOp2]
    links := [], opsToReuseResult := [], opsToViewResult := ["sink1"] }

/-- Sample operator whose `operatorProperties` binds the key `"operatorID"`
to a value different from the structural `operatorID` field. -/
def collidingOp : WOperator :=
  { operatorID := "realId", operatorType := "Projection"
    inputPorts := [], outputPorts := []
    operatorProperties := .cons "operatorID" (.str "shadow") .nil }

/-- Sample already-flat operator record with no `operatorProperties` field. -/
def flatRecordSample : JObj :=
  flatFour (.str "realId") (.str "Projection") (.arr .nil) (.arr .nil)

/-- Sample operator whose `operatorProperties` object is empty. -/
def emptyPropsOp : WOperator :=
  { operatorID := "limit1", operatorType := "Limit"
    inputPorts := [portOf "in0"], outputPorts := [portOf "out0"]
    operatorProperties := .nil }

/-- Sample page of 50 identical rows. -/
def sampleRows : List JVal :=
  List.replicate 50 (JVal.str "row")

/-- A parse/convert step that always fails (models `json.loads` raising on
malformed input, or a failing conversion). -/
def failConvert : String → Option JVal :=
  fun _ => none

/-! ### Lemmas about the dict operations -/

theorem objGet_objUpdate_same : ∀ (d : JObj) (k : String) (v : JVal),
    objHasKey d k = true → objGet (objUpdate d k v) k = some v
  | .nil, k, v, h => by simp [objHasKey] at h
  | .cons k' v' rest, k, v, h => by
    by_cases hk : k' = k
    · simp [objUpdate, hk, objGet]
    · rw [objHasKey, if_neg hk] at h
      simp [objUpdate, hk, objGet, objGet_objUpdate_same rest k v h]

theorem objGet_objAppendNew_same : ∀ (d : JObj) (k : String) (v : JVal),
    objHasKey d k = false → objGet (objAppendNew d k v) k = some v
  | .nil, k, v, _ => by simp [objAppendNew, objGet]
  | .cons k' v' rest, k, v, h => by
    rw [objHasKey] at h
    by_cases hk : k' = k
    · rw [if_pos hk] at h; exact absurd h (by simp)
    · rw [if_neg hk] at h
      simp [objAppendNew, objGet, hk, objGet_objAppendNew_same rest k v h]

theorem objGet_objSet_same (d : JObj) (k : String) (v : JVal) :
    objGet (objSet d k v) k = some v := by
  rw [objSet]
  by_cases h : objHasKey d k = true
  · rw [if_pos h]; exact objGet_objUpdate_same d k v h
  · rw [if_neg h]; exact objGet_objAppendNew_same d k v (by simpa using h)

theorem objGet_objUpdate_other : ∀ (d : JObj) (key k : String) (v : JVal), k ≠ key →
    objGet (objUpdate d key v) k = objGet d k
  | .nil, _, _, _, _ => rfl
  | .cons k' v' rest, key, k, v, hne => by
    have h1 : ¬ key = k := fun h => hne h.symm
    by_cases hk : k' = key
    · simp only [objUpdate, if_pos hk, objGet, if_neg h1,
        if_neg (show ¬ k' = k from fun h => h1 (hk ▸ h))]
      exact objGet_objUpdate_other rest key k v hne
    · simp only [objUpdate, if_neg hk, objGet]
      by_cases hk2 : k' = k
      · simp [hk2]
      · simp only [if_neg hk2]
        exact objGet_objUpdate_other rest key k v hne

theorem objGet_objAppendNew_other : ∀ (d : JObj) (key k : String) (v : JVal), k ≠ key →
    objGet (objAppendNew d key v) k = objGet d k
  | .nil, key, k, v, hne => by
    simp only [objAppendNew, objGet, if_neg (fun h : key = k => hne h.symm)]
  | .cons k' v' rest, key, k, v, hne => by
    simp only [objAppendNew, objGet]
    by_cases hk2 : k' = k
    · simp [hk2]
    · simp only [if_neg hk2]
      exact objGet_objAppendNew_other rest key k v hne

theorem objGet_objSet_other (d : JObj) (key k : String) (v : JVal) (hne : k ≠ key) :
    objGet (objSet d key v) k = objGet d k := by
  rw [objSet]
  by_cases h : objHasKey d key = true
  · rw [if_pos h]; exact objGet_objUpdate_other d key k v hne
  · rw [if_neg h]; exact objGet_objAppendNew_other d key k v hne

/-! ### Lemmas about the export table -/

theorem tableLookup_map_update : ∀ (tbl : ExportTable) (key : ExportKey) (val : ExportVal),
    tableHasKey tbl key = true →
    tableLookup (tbl.map (fun p => if p.1 = key then (key, val) else p)) key = some val
  | [], key, val, h => by simp [tableHasKey] at h
  | (k', v') :: rest, key, val, h => by
    rw [List.map_cons]
    by_cases hk : k' = key
    · subst hk
      have hhead : (if (k', v').1 = k' then (k', val) else (k', v')) = (k', val) := by simp
      rw [hhead, tableLookup, if_pos rfl]
    · rw [tableHasKey, if_neg hk] at h
      have hhead : (if (k', v').1 = key then (key, val) else (k', v')) = (k', v') := by
        simp [hk]
      rw [hhead, tableLookup, if_neg hk]
      exact tableLookup_map_update rest key val h

theorem tableLookup_append_new : ∀ (tbl : ExportTable) (key : ExportKey) (val : ExportVal),
    tableHasKey tbl key = false → tableLookup (tbl ++ [(key, val)]) key = some val
  | [], key, val, _ => by simp [tableLookup]
  | (k', v') :: rest, key, val, h => by
    rw [tableHasKey] at h
    by_cases hk : k' = key
    · rw [if_pos hk] at h; exact absurd h (by simp)
    · rw [if_neg hk] at h
      rw [List.cons_append, tableLookup, if_neg hk]
      exact tableLookup_append_new rest key val h

theorem tableLookup_tableInsert_same (tbl : ExportTable) (key : ExportKey) (val : ExportVal) :
    tableLookup (tableInsert tbl key val) key = some val := by
  rw [tableInsert]
  by_cases h : tableHasKey tbl key = true
  · rw [if_pos h]; exact tableLookup_map_update tbl key val h
  · rw [if_neg h]; exact tableLookup_append_new tbl key val (by simpa using h)

theorem tableLookup_tableErase_same : ∀ (tbl : ExportTable) (key : ExportKey),
    tableLookup (tableErase tbl key) key = none
  | [], _ => rfl
  | (k', v') :: rest, key => by
    by_cases hk : k' = key
    · have hdrop : tableErase ((k', v') :: rest) key = tableErase rest key := by
        simp [tableErase, List.filter_cons, hk]
      rw [hdrop]
      exact tableLookup_tableErase_same rest key
    · have hkeep : tableErase ((k', v') :: rest) key = (k', v') :: tableErase rest key := by
        simp [tableErase, List.filter_cons, hk]
      rw [hkeep, tableLookup, if_neg hk]
      exact tableLookup_tableErase_same rest key

/-! ### Lemmas about the receiver's export completion -/

theorem receiverPaginatedResult_hit (tbl : ExportTable) (e : PaginatedResultEvent)
    (outDir : String) (reqSize : Int)
    (h : tableLookup tbl (e.operatorID, e.pageIndex) = some (outDir, reqSize)) :
    receiverPaginatedResult tbl e
      = (tableErase tbl (e.operatorID, e.pageIndex),
         some { dir := outDir
                filename := e.operatorID ++ "_" ++ toString reqSize ++ "_" ++
                  toString e.pageIndex ++ ".jsonl"
                lines := e.table.map jsonDumps }) := by
  unfold receiverPaginatedResult
  rw [h]

theorem receiverPaginatedResult_miss (tbl : ExportTable) (e : PaginatedResultEvent)
    (h : tableLookup tbl (e.operatorID, e.pageIndex) = none) :
    receiverPaginatedResult tbl e = (tbl, none) := by
  unfold receiverPaginatedResult
  rw [h]

/-! ### Lemmas about port ordinal resolution -/

theorem firstPortIdx_isFirst :
    ∀ (ports : List Port) (pid : String) (j : Nat),
      firstPortIdx ports pid = some j → isFirstPortIdx ports pid j
  | [], pid, j, h => by simp [firstPortIdx] at h
  | p :: rest, pid, j, h => by
    rw [firstPortIdx] at h
    by_cases hp : p.portID = pid
    · rw [if_pos hp] at h
      injection h with h0
      subst h0
      exact ⟨Nat.succ_pos _, hp, fun j' h' => absurd h' (Nat.not_lt_zero _)⟩
    · rw [if_neg hp] at h
      obtain ⟨j0, hrest, hj⟩ := Option.map_eq_some'.mp h
      subst hj
      obtain ⟨h0, hget, hmin⟩ := firstPortIdx_isFirst rest pid j0 hrest
      refine ⟨Nat.succ_lt_succ h0, hget, ?_⟩
      intro j' h'
      cases j' with
      | zero => exact hp
      | succ j'' => exact hmin j'' (Nat.lt_of_succ_lt_succ h')

theorem firstPortIdx_isSome_eq_any (ports : List Port) (pid : String) :
    (firstPortIdx ports pid).isSome = anyPortMatches ports pid := by
  induction ports with
  | nil => rfl
  | cons p rest ih =>
    rw [firstPortIdx, anyPortMatches]
    by_cases hp : p.portID = pid
    · simp [hp]
    · simp only [if_neg hp]
      rw [← ih]
      cases firstPortIdx rest pid <;> rfl

theorem firstPortIdx_eq_none_of_any_false (ports : List Port) (pid : String)
    (h : anyPortMatches ports pid = false) : firstPortIdx ports pid = none := by
  cases hfp : firstPortIdx ports pid with
  | none => rfl
  | some j =>
    have hs := firstPortIdx_isSome_eq_any ports pid
    rw [hfp, h] at hs
    simp at hs

/-! ### Lemmas about link conversion -/

theorem convertLink_some_of_resolves (ops : List WOperator) (l : WLink)
    (h : endpointsResolve ops l = true) :
    ∃ ll, convertLink ops l = some ll ∧ linkSpec ops l ll := by
  rw [endpointsResolve, Bool.and_eq_true] at h
  obtain ⟨hsrc, htgt⟩ := h
  cases hso : firstOperator ops l.source.operatorID with
  | none => rw [hso] at hsrc; simp at hsrc
  | some srcOp =>
    rw [hso] at hsrc
    cases hto : firstOperator ops l.target.operatorID with
    | none => rw [hto] at htgt; simp at htgt
    | some tgtOp =>
      rw [hto] at htgt
      have hsrc' : anyPortMatches srcOp.outputPorts l.source.portID = true := hsrc
      have htgt' : anyPortMatches tgtOp.inputPorts l.target.portID = true := htgt
      have hsome1 : (firstPortIdx srcOp.outputPorts l.source.portID).isSome = true := by
        rw [firstPortIdx_isSome_eq_any]; exact hsrc'
      obtain ⟨outIdx, hout⟩ := Option.isSome_iff_exists.mp hsome1
      have hsome2 : (firstPortIdx tgtOp.inputPorts l.target.portID).isSome = true := by
        rw [firstPortIdx_isSome_eq_any]; exact htgt'
      obtain ⟨inIdx, hin⟩ := Option.isSome_iff_exists.mp hsome2
      refine ⟨{ fromOpId := l.source.operatorID
                fromPortId := { id := outIdx, internal := false }
                toOpId := l.target.operatorID
                toPortId := { id := inIdx, internal := false } }, ?_, ?_⟩
      · simp [convertLink, get_output_port_ordinal, get_input_port_ordinal, hso, hto, hout, hin]
      · exact ⟨rfl, rfl, rfl, rfl,
          ⟨srcOp, hso, firstPortIdx_isFirst _ _ _ hout⟩,
          ⟨tgtOp, hto, firstPortIdx_isFirst _ _ _ hin⟩⟩

theorem convertLink_none_of_not_resolves (ops : List WOperator) (l : WLink)
    (h : endpointsResolve ops l = false) :
    convertLink ops l = none := by
  rw [endpointsResolve, Bool.and_eq_false_iff] at h
  rcases h with h | h
  · have hnone : get_output_port_ordinal ops l.source.operatorID l.source.portID = none := by
      cases hso : firstOperator ops l.source.operatorID with
      | none => simp [get_output_port_ordinal, hso]
      | some srcOp =>
        rw [hso] at h
        have h' : anyPortMatches srcOp.outputPorts l.source.portID = false := h
        simp [get_output_port_ordinal, hso, firstPortIdx_eq_none_of_any_false _ _ h']
    simp [convertLink, hnone]
  · have hnone : get_input_port_ordinal ops l.target.operatorID l.target.portID = none := by
      cases hto : firstOperator ops l.target.operatorID with
      | none => simp [get_input_port_ordinal, hto]
      | some tgtOp =>
        rw [hto] at h
        have h' : anyPortMatches tgtOp.inputPorts l.target.portID = false := h
        simp [get_input_port_ordinal, hto, firstPortIdx_eq_none_of_any_false _ _ h']
    cases houtv : get_output_port_ordinal ops l.source.operatorID l.source.portID with
    | none => simp [convertLink, houtv]
    | some j => simp [convertLink, houtv, hnone]

theorem convertLinks_forall₂ (ops : List WOperator) :
    ∀ links : List WLink, (∀ l ∈ links, endpointsResolve ops l = true) →
      ∃ lls, convertLinks ops links = some lls ∧ List.Forall₂ (linkSpec ops) links lls
  | [], _ => ⟨[], rfl, List.Forall₂.nil⟩
  | l :: rest, h => by
    obtain ⟨ll, hll, hspec⟩ :=
      convertLink_some_of_resolves ops l (h l (List.mem_cons_self l rest))
    obtain ⟨lls, hlls, hforall⟩ :=
      convertLinks_forall₂ ops rest (fun l' hl' => h l' (List.mem_cons_of_mem l hl'))
    exact ⟨ll :: lls, by simp [convertLinks, hll, hlls], List.Forall₂.cons hspec hforall⟩

theorem convertLinks_none_of_mem (ops : List WOperator) :
    ∀ (links : List WLink) (l : WLink), l ∈ links → convertLink ops l = none →
      convertLinks ops links = none
  | [], l, hl, _ => absurd hl (List.not_mem_nil l)
  | l' :: rest, l, hl, hnone => by
    rcases List.mem_cons.mp hl with rfl | hmem
    · simp [convertLinks, hnone]
    · have hrest := convertLinks_none_of_mem ops rest l hmem hnone
      cases hc : convertLink ops l' with
      | none => simp [convertLinks, hc]
      | some ll => simp [convertLinks, hc, hrest]

/-! ### Lemmas about the id-set intersection -/

theorem mem_setOfIds : ∀ (l : List String) (x : String), x ∈ setOfIds l ↔ x ∈ l
  | [], x => by simp [setOfIds]
  | y :: rest, x => by
    rw [setOfIds]
    by_cases hy : y ∈ setOfIds rest
    · rw [if_pos hy, mem_setOfIds rest x]
      constructor
      · exact fun h => List.mem_cons_of_mem y h
      · intro h
        rcases List.mem_cons.mp h with rfl | h
        · exact (mem_setOfIds rest x).mp hy
        · exact h
    · rw [if_neg hy]
      simp [List.mem_cons, mem_setOfIds rest x]

theorem mem_intersectIds (opIds req : List String) (x : String) :
    x ∈ intersectIds opIds req ↔ x ∈ opIds ∧ x ∈ req := by
  rw [intersectIds, List.mem_filter, mem_setOfIds]
  simp

theorem intersectIds_nil (opIds : List String) : intersectIds opIds [] = [] := by
  rw [intersectIds]
  apply List.filter_eq_nil_iff.mpr
  intro a _
  simp

/-! ### Claim theorems -/

/-- C1: for every User Workflow Document in which every link endpoint
references an existing operator and port, `convertWorkflowContentToLogicalPlan`
produces a plan whose link records pair each input link with a record
`{fromOpId, fromPortId:{id, internal:false}, toOpId, toPortId:{id, internal:false}}`
in which `fromPortId.id` is the zero-based index of the link's source `portID`
within the source operator's `outputPorts` list and `toPortId.id` is the
zero-based index of the target `portID` within the target operator's
`inputPorts` list. -/
theorem convert_resolved_links_ordinals (w : WorkflowContent)
    (hres : ∀ l ∈ w.links, endpointsResolve w.operators l = true) :
    ∃ plan, convertWorkflowContentToLogicalPlan w = some plan ∧
      List.Forall₂ (linkSpec w.operators) w.links plan.links := by
  obtain ⟨lls, hlls, hforall⟩ := convertLinks_forall₂ w.operators w.links hres
  exact ⟨{ operators := w.operators.map flattenOperator
           links := lls
           opsToReuseResult :=
             intersectIds (w.operators.map WOperator.operatorID)
               (w.opsToReuseResult.getD [])
           opsToViewResult :=
             intersectIds (w.operators.map WOperator.operatorID)
               (w.opsToViewResult.getD []) },
         by simp [convertWorkflowContentToLogicalPlan, hlls], hforall⟩

/-- Witness for C1 at a concrete fully-resolving document. -/
theorem convert_resolved_links_ordinals_witness :
    (∀ l ∈ sampleDoc1.links, endpointsResolve sampleDoc1.operators l = true) ∧
    (∃ plan, convertWorkflowContentToLogicalPlan sampleDoc1 = some plan ∧
      List.Forall₂ (linkSpec sampleDoc1.operators) sampleDoc1.links plan.links) :=
  ⟨by decide, convert_resolved_links_ordinals sampleDoc1 (by decide)⟩

/-- C2: after a paginate command with an export directory for operator `opA`,
page 3, size 50 has stored its Export Correlator entry, dispatching the first
`PaginatedResultEvent` for `(opA, 3)` carrying 50 rows writes the file
`opA_50_3.jsonl` in that directory, containing exactly 50 lines, each line the
JSON encoding of one row in order, and afterwards the table no longer contains
the key `(opA, 3)`. -/
theorem paginate_export_writes_file (tbl : ExportTable) (d : String)
    (rows : List JVal) (schema : JVal) (h50 : rows.length = 50) :
    receiverPaginatedResult
        (handle_page tbl { operator := "opA", size := 50, page := 3, exportDir := some d }).1
        { operatorID := "opA", pageIndex := 3, table := rows, schema := schema }
      = (tableErase (tableInsert tbl ("opA", 3) (d, 50)) ("opA", 3),
         some { dir := d, filename := "opA_50_3.jsonl", lines := rows.map jsonDumps }) ∧
    (rows.map jsonDumps).length = 50 ∧
    tableLookup
      (receiverPaginatedResult
        (handle_page tbl { operator := "opA", size := 50, page := 3, exportDir := some d }).1
        { operatorID := "opA", pageIndex := 3, table := rows, schema := schema }).1
      ("opA", 3) = none := by
  have hpage : (handle_page tbl { operator := "opA", size := 50, page := 3, exportDir := some d }).1
      = tableInsert tbl ("opA", 3) (d, 50) := rfl
  have hlook : tableLookup (tableInsert tbl ("opA", 3) (d, 50)) ("opA", 3) = some (d, 50) :=
    tableLookup_tableInsert_same tbl ("opA", 3) (d, 50)
  have hstep : receiverPaginatedResult (tableInsert tbl ("opA", 3) (d, 50))
      { operatorID := "opA", pageIndex := 3, table := rows, schema := schema }
      = (tableErase (tableInsert tbl ("opA", 3) (d, 50)) ("opA", 3),
         some { dir := d, filename := "opA_50_3.jsonl", lines := rows.map jsonDumps }) :=
    receiverPaginatedResult_hit _ _ d 50 hlook
  refine ⟨?_, ?_, ?_⟩
  · rw [hpage]; exact hstep
  · rw [List.length_map, h50]
  · rw [hpage, hstep]
    exact tableLookup_tableErase_same _ _

/-- Witness for C2 at a concrete table, directory and page of 50 rows. -/
theorem paginate_export_writes_file_witness :
    sampleRows.length = 50 ∧
    (receiverPaginatedResult
        (handle_page [] { operator := "opA", size := 50, page := 3, exportDir := some "outdir" }).1
        { operatorID := "opA", pageIndex := 3, table := sampleRows, schema := JVal.null }
      = (tableErase (tableInsert [] ("opA", 3) ("outdir", 50)) ("opA", 3),
         some { dir := "outdir", filename := "opA_50_3.jsonl", lines := sampleRows.map jsonDumps }) ∧
     (sampleRows.map jsonDumps).length = 50 ∧
     tableLookup
       (receiverPaginatedResult
         (handle_page [] { operator := "opA", size := 50, page := 3, exportDir := some "outdir" }).1
         { operatorID := "opA", pageIndex := 3, table := sampleRows, schema := JVal.null }).1
       ("opA", 3) = none) :=
  ⟨rfl, paginate_export_writes_file [] "outdir" sampleRows JVal.null rfl⟩

/-- C3: for every input document that converts, the `opsToViewResult` and
`opsToReuseResult` lists of the plan contain exactly the ids that occur both
in the corresponding input list and among the input's operator ids (dangling
ids are dropped), and each list is empty when the corresponding input field is
absent. -/
theorem opsLists_intersection (w : WorkflowContent) (plan : LogicalPlan)
    (h : convertWorkflowContentToLogicalPlan w = some plan) :
    (∀ x, x ∈ plan.opsToViewResult ↔
        x ∈ w.opsToViewResult.getD [] ∧ x ∈ w.operators.map WOperator.operatorID) ∧
    (∀ x, x ∈ plan.opsToReuseResult ↔
        x ∈ w.opsToReuseResult.getD [] ∧ x ∈ w.operators.map WOperator.operatorID) ∧
    (w.opsToViewResult = none → plan.opsToViewResult = []) ∧
    (w.opsToReuseResult = none → plan.opsToReuseResult = []) := by
  cases hls : convertLinks w.operators w.links with
  | none =>
    rw [convertWorkflowContentToLogicalPlan, hls] at h
    exact absurd h (by simp)
  | some lls =>
    rw [convertWorkflowContentToLogicalPlan, hls] at h
    obtain rfl := Option.some.inj h
    refine ⟨?_, ?_, ?_, ?_⟩
    · intro x
      exact (mem_intersectIds _ _ x).trans and_comm
    · intro x
      exact (mem_intersectIds _ _ x).trans and_comm
    · intro hnone
      show intersectIds (w.operators.map WOperator.operatorID) (w.opsToViewResult.getD []) = []
      rw [hnone, Option.getD_none]
      exact intersectIds_nil _
    · intro hnone
      show intersectIds (w.operators.map WOperator.operatorID) (w.opsToReuseResult.getD []) = []
      rw [hnone, Option.getD_none]
      exact intersectIds_nil _

/-- Witness for C3 at a concrete document with one dangling view id and an
absent reuse list. -/
theorem opsLists_intersection_witness :
    convertWorkflowContentToLogicalPlan sampleDoc3 = some samplePlan3 ∧
    ((∀ x, x ∈ samplePlan3.opsToViewResult ↔
        x ∈ sampleDoc3.opsToViewResult.getD [] ∧
          x ∈ sampleDoc3.operators.map WOperator.operatorID) ∧
     (∀ x, x ∈ samplePlan3.opsToReuseResult ↔
        x ∈ sampleDoc3.opsToReuseResult.getD [] ∧
          x ∈ sampleDoc3.operators.map WOperator.operatorID) ∧
     (sampleDoc3.opsToViewResult = none → samplePlan3.opsToViewResult = []) ∧
     (sampleDoc3.opsToReuseResult = none → samplePlan3.opsToReuseResult = [])) :=
  ⟨rfl, opsLists_intersection sampleDoc3 samplePlan3 rfl⟩

/-- C4: dispatching a second `PaginatedResultEvent` with the same operatorID
and pageIndex, after a first dispatch has already consumed (or found no)
Export Correlator entry for that key, writes no file and leaves the table
unchanged. -/
theorem second_event_no_write (tbl : ExportTable) (e : PaginatedResultEvent) :
    receiverPaginatedResult (receiverPaginatedResult tbl e).1 e
      = ((receiverPaginatedResult tbl e).1, none) := by
  cases h : tableLookup tbl (e.operatorID, e.pageIndex) with
  | none =>
    have h1 : receiverPaginatedResult tbl e = (tbl, none) :=
      receiverPaginatedResult_miss tbl e h
    rw [h1]
    exact receiverPaginatedResult_miss tbl e h
  | some pv =>
    obtain ⟨outDir, reqSize⟩ := pv
    have h1 := receiverPaginatedResult_hit tbl e outDir reqSize h
    rw [h1]
    exact receiverPaginatedResult_miss _ e (tableLookup_tableErase_same tbl (e.operatorID, e.pageIndex))

/-- C5: for every execute command whose plan file is missing, unreadable, or
whose contents fail parsing/conversion, `handle_exec` returns before the
single `ws.send`, so nothing at all is transmitted, and the sender loop
continues with the remaining commands exactly as if the failed command had
not been issued. -/
theorem exec_failure_sends_nothing (convertRaw parseRaw : String → Option JVal)
    (name : String) (r : ReadResult) (tbl : ExportTable) (rest : List Command)
    (hfail : execFails convertRaw parseRaw r) :
    handle_exec convertRaw parseRaw name r = none ∧
    senderRun convertRaw parseRaw tbl (Command.exec name r :: rest)
      = senderRun convertRaw parseRaw tbl rest := by
  have hnone : handle_exec convertRaw parseRaw name r = none := by
    cases r with
    | notFound => rfl
    | readError => rfl
    | content raw =>
      have h : detect_and_load convertRaw parseRaw raw = none := hfail
      simp [handle_exec, h]
  refine ⟨hnone, ?_⟩
  simp [senderRun, senderStep, hnone]

/-- Witness for C5 at a concrete malformed-content command followed by a kill
command. -/
theorem exec_failure_sends_nothing_witness :
    execFails failConvert failConvert (ReadResult.content "not json") ∧
    (handle_exec failConvert failConvert "wf" (ReadResult.content "not json") = none ∧
     senderRun failConvert failConvert []
         (Command.exec "wf" (ReadResult.content "not json") :: [Command.kill])
       = senderRun failConvert failConvert [] [Command.kill]) :=
  ⟨rfl, exec_failure_sends_nothing failConvert failConvert "wf"
    (ReadResult.content "not json") [] [Command.kill] rfl⟩

/-- C6: for every input document containing a link whose source `portID` has
no match among the source operator's `outputPorts`, or whose target `portID`
has no match among the target operator's `inputPorts`, or whose endpoint
operatorID matches no operator, `convertWorkflowContentToLogicalPlan` fails
(the lookup failure propagates) instead of returning a plan. -/
theorem convert_unresolved_link_fails (w : WorkflowContent) (l : WLink)
    (hl : l ∈ w.links) (hbad : endpointsResolve w.operators l = false) :
    convertWorkflowContentToLogicalPlan w = none := by
  have h1 : convertLink w.operators l = none :=
    convertLink_none_of_not_resolves w.operators l hbad
  have h2 : convertLinks w.operators w.links = none :=
    convertLinks_none_of_mem w.operators w.links l hl h1
  rw [convertWorkflowContentToLogicalPlan, h2]

/-- Witness for C6 at a concrete document whose only link references a
non-existent source port. -/
theorem convert_unresolved_link_fails_witness :
    badLink ∈ sampleDoc6.links ∧
    endpointsResolve sampleDoc6.operators badLink = false ∧
    convertWorkflowContentToLogicalPlan sampleDoc6 = none :=
  ⟨List.mem_cons_self badLink [], by decide,
   convert_unresolved_link_fails sampleDoc6 badLink (List.mem_cons_self badLink []) (by decide)⟩

/-- C7 counterexample: for the concrete operator `collidingOp`, whose
`operatorProperties` binds `"operatorID"` to `"shadow"` while the structural
field is `"realId"`, the flattened record carries the structural value, not
the property value — so the claim that the flattened (`operatorProperties`)
value is kept is false. -/
theorem flatten_collision_counterexample :
    objGet collidingOp.operatorProperties "operatorID" = some (JVal.str "shadow") ∧
    objGet (flattenOperator collidingOp) "operatorID" = some (JVal.str "realId") ∧
    objGet (flattenOperator collidingOp) "operatorID" ≠ some (JVal.str "shadow") :=
  ⟨rfl, rfl, by decide⟩

/-- C7 amended: for every operator whose `operatorProperties` map contains a
key colliding with one of the four structural fields, the flattened record
keeps the structural field's value for that key — the properties are spread
first, so the structural fields, merged after them, override. -/
theorem flatten_collision_structural_wins (op : WOperator) (k : String)
    (hk : k = "operatorID" ∨ k = "operatorType" ∨ k = "inputPorts" ∨ k = "outputPorts")
    (hcol : objHasKey op.operatorProperties k = true) :
    objGet (flattenOperator op) k = some (structuralValue op k) := by
  rcases hk with rfl | rfl | rfl | rfl
  · rw [flattenOperator,
      objGet_objSet_other _ "outputPorts" "operatorID" _ (by decide),
      objGet_objSet_other _ "inputPorts" "operatorID" _ (by decide),
      objGet_objSet_other _ "operatorType" "operatorID" _ (by decide),
      objGet_objSet_same]
    rfl
  · rw [flattenOperator,
      objGet_objSet_other _ "outputPorts" "operatorType" _ (by decide),
      objGet_objSet_other _ "inputPorts" "operatorType" _ (by decide),
      objGet_objSet_same]
    rfl
  · rw [flattenOperator,
      objGet_objSet_other _ "outputPorts" "inputPorts" _ (by decide),
      objGet_objSet_same]
    rfl
  · rw [flattenOperator, objGet_objSet_same]
    rfl

/-- Witness for the amended C7 at the concrete colliding operator. -/
theorem flatten_collision_structural_wins_witness :
    ("operatorID" = "operatorID" ∨ "operatorID" = "operatorType" ∨
      "operatorID" = "inputPorts" ∨ "operatorID" = "outputPorts") ∧
    objHasKey collidingOp.operatorProperties "operatorID" = true ∧
    objGet (flattenOperator collidingOp) "operatorID"
      = some (structuralValue collidingOp "operatorID") :=
  ⟨Or.inl rfl, rfl,
   flatten_collision_structural_wins collidingOp "operatorID" (Or.inl rfl) rfl⟩

/-- C8 counterexample: applying the conversion's operator-flattening step to
the concrete already-flat record `flatRecordSample`, which has no
`operatorProperties` field, fails (the `operator["operatorProperties"]`
lookup raises) instead of yielding the same four structural fields. -/
theorem reflatten_missing_props_counterexample :
    objGet flatRecordSample "operatorProperties" = none ∧
    flattenOperatorDict flatRecordSample = none ∧
    flattenOperatorDict flatRecordSample ≠ some flatRecordSample :=
  ⟨rfl, rfl, by decide⟩

/-- C8 amended: the flattening step applied to a record with no
`operatorProperties` field fails rather than returning the record; flattening
an operator whose `operatorProperties` object is empty yields exactly the four
structural fields and no additional fields, and the flattening step maps a
record carrying an empty `operatorProperties` object next to the four
structural fields to exactly those four fields. -/
theorem reflatten_amended :
    (∀ d : JObj, objGet d "operatorProperties" = none → flattenOperatorDict d = none) ∧
    (∀ op : WOperator, op.operatorProperties = JObj.nil →
      flattenOperator op = flatFour (.str op.operatorID) (.str op.operatorType)
        (.arr (portsToJArr op.inputPorts)) (.arr (portsToJArr op.outputPorts))) ∧
    (∀ vID vType vIn vOut : JVal,
      flattenOperatorDict (withEmptyProps vID vType vIn vOut)
        = some (flatFour vID vType vIn vOut)) := by
  refine ⟨?_, ?_, ?_⟩
  · intro d h
    rw [flattenOperatorDict, h]
  · intro op h
    rw [flattenOperator, h]
    rfl
  · intro vID vType vIn vOut
    rfl

/-- Witness for the amended C8 at concrete records and a concrete operator. -/
theorem reflatten_amended_witness :
    (objGet flatRecordSample "operatorProperties" = none ∧
      flattenOperatorDict flatRecordSample = none) ∧
    (emptyPropsOp.operatorProperties = JObj.nil ∧
      flattenOperator emptyPropsOp
        = flatFour (.str emptyPropsOp.operatorID) (.str emptyPropsOp.operatorType)
            (.arr (portsToJArr emptyPropsOp.inputPorts))
            (.arr (portsToJArr emptyPropsOp.outputPorts))) ∧
    flattenOperatorDict (withEmptyProps (.str "a") (.str "t") (.arr .nil) (.arr .nil))
      = some (flatFour (.str "a") (.str "t") (.arr .nil) (.arr .nil)) :=
  ⟨⟨rfl, reflatten_amended.1 flatRecordSample rfl⟩,
   ⟨rfl, reflatten_amended.2.1 emptyPropsOp rfl⟩,
   reflatten_amended.2.2 (.str "a") (.str "t") (.arr .nil) (.arr .nil)⟩

/-- C9: dispatching an `ExecutionDurationUpdateEvent` with `isRunning` false
and duration 12345 milliseconds reports the carried value divided exactly by
1000, which is 12.345 seconds; when `isRunning` is true no duration is
reported.  The Python float division is embedded as exact division in `ℚ`. -/
theorem duration_update_final_seconds :
    receiverDurationUpdate 12345 false = some ((12345 : ℚ) / 1000) ∧
    (12345 : ℚ) / 1000 = (12.345 : ℚ) ∧
    ∀ durationMs : Int, receiverDurationUpdate durationMs true = none := by
  refine ⟨?_, by norm_num, fun d => rfl⟩
  norm_num [receiverDurationUpdate]

/-- C10: issuing a second paginate command with an export directive for the
same `(operator, pageIndex)` key overwrites the Export Correlator entry: the
table then maps the key to the latest `(directory, size)` pair, and a later
matching result event exports using exactly that latest directory and size in
the file name. -/
theorem paginate_export_overwrite (tbl : ExportTable) (op : String) (page : Int)
    (d1 d2 : String) (s1 s2 : Int) (rows : List JVal) (schema : JVal) :
    tableLookup
        ((handle_page
            ((handle_page tbl { operator := op, size := s1, page := page, exportDir := some d1 }).1)
            { operator := op, size := s2, page := page, exportDir := some d2 }).1)
        (op, page) = some (d2, s2) ∧
    receiverPaginatedResult
        ((handle_page
            ((handle_page tbl { operator := op, size := s1, page := page, exportDir := some d1 }).1)
            { operator := op, size := s2, page := page, exportDir := some d2 }).1)
        { operatorID := op, pageIndex := page, table := rows, schema := schema }
      = (tableErase
          ((handle_page
              ((handle_page tbl { operator := op, size := s1, page := page, exportDir := some d1 }).1)
              { operator := op, size := s2, page := page, exportDir := some d2 }).1)
          (op, page),
         some { dir := d2
                filename := op ++ "_" ++ toString s2 ++ "_" ++ toString page ++ ".jsonl"
                lines := rows.map jsonDumps }) := by
  have h1 : (handle_page tbl { operator := op, size := s1, page := page, exportDir := some d1 }).1
      = tableInsert tbl (op, page) (d1, s1) := rfl
  have h2 : (handle_page (tableInsert tbl (op, page) (d1, s1))
        { operator := op, size := s2, page := page, exportDir := some d2 }).1
      = tableInsert (tableInsert tbl (op, page) (d1, s1)) (op, page) (d2, s2) := rfl
  have hlook : tableLookup
      (tableInsert (tableInsert tbl (op, page) (d1, s1)) (op, page) (d2, s2)) (op, page)
      = some (d2, s2) := tableLookup_tableInsert_same _ _ _
  constructor
  · rw [h1, h2]; exact hlook
  · rw [h1, h2]
    exact receiverPaginatedResult_hit _ _ d2 s2 hlook

/-- Sanity check: on a structured operator, the raw-dictionary flattening step
agrees with the structured one. -/
theorem flattenOperatorDict_operatorToJObj (op : WOperator) :
    flattenOperatorDict (operatorToJObj op) = some (flattenOperator op) := rfl
